import Mathlib

/-!
Shallow embedding of the card-economy core of `src/bot.py` (tg-card-bot).

The four relations of the schema (cards, users, inventory, trades) are lists
of records; SERIAL primary keys are modelled by explicit `next…Id` counters.
Timestamps are integers (seconds since 1970-01-01, the sentinel value `0`
standing for the `'1970-01-01'` default of `users.last_pack`).  Randomness
(`random.choices`, `random.choice`, `ORDER BY random()`, `random.randint`)
is modelled by an explicit stream of natural numbers that each draw consumes.
-/

set_option maxRecDepth 8000

structure Card where
  id : Nat
  name : String
  rarity : String
  coinsPerHour : Int
  imageFileId : Option String
  deriving DecidableEq, Repr

structure UserRow where
  tgId : Int
  lastPack : Int
  coins : Int
  deriving DecidableEq, Repr

structure InvItem where
  id : Nat
  userId : Int
  cardId : Nat
  deriving DecidableEq, Repr

structure Trade where
  id : Nat
  fromUser : Int
  toUser : Int
  offeredInventoryId : Nat
  status : String
  deriving DecidableEq, Repr

structure DB where
  cards : List Card
  users : List UserRow
  inventory : List InvItem
  trades : List Trade
  nextCardId : Nat
  nextInvId : Nat
  nextTradeId : Nat
  deriving DecidableEq, Repr

/-- `RARITY_DEFAULTS` of bot.py: rarity name, selection weight, coins_per_hour. -/
def RARITY_DEFAULTS : List (String × Nat × Int) :=
  [("common", 60, 1), ("rare", 25, 3), ("epic", 10, 8), ("legendary", 5, 20)]

/-- `get_weights_and_rarities` of bot.py. -/
def get_weights_and_rarities : List String × List Nat :=
  (RARITY_DEFAULTS.map (·.1), RARITY_DEFAULTS.map (·.2.1))

/-- Default coins_per_hour of a rarity (`RARITY_DEFAULTS[rarity]['coins_per_hour']`). -/
def rarityDefaultIncome (r : String) : Int :=
  match RARITY_DEFAULTS.find? (·.1 == r) with
  | some e => e.2.2
  | none => 0

/-- `COOLDOWN_MINUTES` (environment default 30). -/
def COOLDOWN_MINUTES : Int := 30

/-- Consume one value from the random stream (0 when exhausted). -/
def rngNext : List Nat → Nat × List Nat
  | [] => (0, [])
  | r :: rs => (r, rs)

/-- Cumulative-weight selection, the core of `random.choices(population, weights)`. -/
def weightedPickGo : List String → List Nat → Nat → String
  | [], _, _ => "common"
  | r :: _, [], _ => r
  | r :: rs, w :: ws, x => if x < w then r else weightedPickGo rs ws (x - w)

/-- `random.choices(population, weights)[0]`: one weighted draw, the random
float replaced by a natural number reduced modulo the total weight. -/
def weightedPick (pop : List String) (weights : List Nat) (r : Nat) : String :=
  weightedPickGo pop weights (r % weights.foldl (· + ·) 0)

/-- `random.choice(bucket)` on a list of cards (uniform index). -/
def uniformPick (l : List Card) (r : Nat) : Card :=
  l.getD (r % l.length) { id := 0, name := "", rarity := "", coinsPerHour := 0, imageFileId := none }

/-- `ensure_user`: `INSERT INTO users (tg_id) VALUES ($1) ON CONFLICT DO NOTHING`,
with the column defaults last_pack = '1970-01-01' (sentinel 0) and coins = 0. -/
def ensure_user (db : DB) (tg_id : Int) : DB :=
  if db.users.any (fun u => u.tgId == tg_id) then db
  else { db with users := db.users ++ [{ tgId := tg_id, lastPack := 0, coins := 0 }] }

/-- coins_per_hour of a card id (0 for a dangling reference, as the LEFT JOIN yields NULL). -/
def cardIncome (db : DB) (cardId : Nat) : Int :=
  match db.cards.find? (fun c => c.id == cardId) with
  | some c => c.coinsPerHour
  | none => 0

/-- `COALESCE(SUM(c.coins_per_hour),0)` over the inventory of one user. -/
def userIncome (db : DB) (tg_id : Int) : Int :=
  ((db.inventory.filter (fun i => i.userId == tg_id)).map (fun i => cardIncome db i.cardId)).sum

/-- `give_passive_income_all`: credit each user's summed inventory income,
updating a row only when `income > 0`. -/
def give_passive_income_all (db : DB) : DB :=
  { db with users := db.users.map (fun u =>
      if 0 < userIncome db u.tgId then { u with coins := u.coins + userIncome db u.tgId } else u) }

/-- `INSERT INTO inventory (user_id, card_id) VALUES ($1,$2)`. -/
def insertInv (db : DB) (uid : Int) (cardId : Nat) : DB :=
  { db with
      inventory := db.inventory ++ [{ id := db.nextInvId, userId := uid, cardId := cardId }],
      nextInvId := db.nextInvId + 1 }

inductive FreeRes
  | cooldown (mins : Int)
  | granted (got : List Card)
  deriving DecidableEq, Repr

inductive BuyRes
  | insufficient
  | bought (got : List Card)
  deriving DecidableEq, Repr

inductive OfferRes
  | notOwner
  | created (tradeId : Nat)
  deriving DecidableEq, Repr

inductive AcceptRes
  | notFound
  | notRecipient
  | ok
  deriving DecidableEq, Repr

/-- The slot loop shared by the populated-catalog paths of `cb_free_pack`
(`len(cards) >= 5`) and `_buy_pack` (`if cards:`): weighted rarity roll,
uniform pick in the rarity bucket of the snapshot, falling back to the whole
snapshot when the bucket is empty, one inventory insert per slot. -/
def drawPickLoop (snapshot : List Card) (uid : Int) :
    Nat → DB → List Nat → List Card → DB × List Nat × List Card
  | 0, db, rng, got => (db, rng, got)
  | n + 1, db, rng, got =>
      let p1 := rngNext rng
      let rw := get_weights_and_rarities
      let rarity := weightedPick rw.1 rw.2 p1.1
      let bucket0 := snapshot.filter (fun c => c.rarity == rarity)
      let bucket := if bucket0.isEmpty then snapshot else bucket0
      let p2 := rngNext p1.2
      let choice := uniformPick bucket p2.1
      drawPickLoop snapshot uid n (insertInv db uid choice.id) p2.2 (got ++ [choice])

/-- The bootstrap slot loop of `cb_free_pack` (`len(cards) < 5`): weighted
rarity roll, `SELECT … WHERE rarity=$1 ORDER BY random() LIMIT 1` against the
live cards table, synthesizing and persisting a card with the rarity's default
income when none of that rarity exists yet. -/
def drawBootstrapLoop (uid : Int) :
    Nat → DB → List Nat → List Card → DB × List Nat × List Card
  | 0, db, rng, got => (db, rng, got)
  | n + 1, db, rng, got =>
      let p1 := rngNext rng
      let rw := get_weights_and_rarities
      let rarity := weightedPick rw.1 rw.2 p1.1
      let existing := db.cards.filter (fun c => c.rarity == rarity)
      let p2 := rngNext p1.2
      if existing.isEmpty then
        let name := "Card " ++ toString (1000 + p2.1 % 9000)
        let c : Card := { id := db.nextCardId, name := name, rarity := rarity,
                          coinsPerHour := rarityDefaultIncome rarity, imageFileId := none }
        let db1 := { db with cards := db.cards ++ [c], nextCardId := db.nextCardId + 1 }
        drawBootstrapLoop uid n (insertInv db1 uid c.id) p2.2 (got ++ [c])
      else
        let c := uniformPick existing p2.1
        drawBootstrapLoop uid n (insertInv db uid c.id) p2.2 (got ++ [c])

/-- `cb_free_pack`: ensure the account, read `last_pack` (NULL coalesced to the
1970 epoch by `last or datetime(1970,1,1)`), refuse with the remaining whole
minutes while inside the cooldown, otherwise stamp `last_pack = now` and draw
five cards by the populated or bootstrap path. -/
def cb_free_pack (db0 : DB) (uid : Int) (now : Int) (rng : List Nat) :
    DB × List Nat × FreeRes :=
  let db := ensure_user db0 uid
  let last_dt := ((db.users.find? (fun v => v.tgId == uid)).map (fun v => v.lastPack)).getD 0
  if now - last_dt < COOLDOWN_MINUTES * 60 then
    (db, rng, FreeRes.cooldown ((COOLDOWN_MINUTES * 60 - (now - last_dt)) / 60))
  else
    let db1 : DB := { db with users := db.users.map (fun v =>
        if v.tgId == uid then { v with lastPack := now } else v) }
    if 5 ≤ db1.cards.length then
      let r := drawPickLoop db1.cards uid 5 db1 rng []
      (r.1, r.2.1, FreeRes.granted r.2.2)
    else
      let r := drawBootstrapLoop uid 5 db1 rng []
      (r.1, r.2.1, FreeRes.granted r.2.2)

/-- The empty-catalog slot loop of `_buy_pack`: `random.choice` over the rarity
names (uniform, not weighted), then synthesize and persist a card with the
rarity's default income (the snapshot stays empty, so every slot synthesizes). -/
def buyEmptyLoop (uid : Int) :
    Nat → DB → List Nat → List Card → DB × List Nat × List Card
  | 0, db, rng, got => (db, rng, got)
  | n + 1, db, rng, got =>
      let p1 := rngNext rng
      let rar := (RARITY_DEFAULTS.map (·.1)).getD (p1.1 % RARITY_DEFAULTS.length) "common"
      let p2 := rngNext p1.2
      let name := "Card" ++ toString (1000 + p2.1 % 9000)
      let c : Card := { id := db.nextCardId, name := name, rarity := rar,
                        coinsPerHour := rarityDefaultIncome rar, imageFileId := none }
      let db1 := { db with cards := db.cards ++ [c], nextCardId := db.nextCardId + 1 }
      buyEmptyLoop uid n (insertInv db1 uid c.id) p2.2 (got ++ [c])

/-- `_buy_pack`: fetch the balance (missing row behaves like insufficient
funds), refuse when `coins < price`, otherwise debit `price` and grant `count`
cards, picking from the snapshot when the catalog is nonempty and synthesizing
otherwise. -/
def _buy_pack (db : DB) (uid : Int) (count : Nat) (price : Int) (rng : List Nat) :
    DB × List Nat × BuyRes :=
  match db.users.find? (fun u => u.tgId == uid) with
  | none => (db, rng, BuyRes.insufficient)
  | some u =>
    if u.coins < price then (db, rng, BuyRes.insufficient)
    else
      let db1 := { db with users := db.users.map (fun v =>
          if v.tgId == uid then { v with coins := v.coins - price } else v) }
      if db1.cards.isEmpty then
        let r := buyEmptyLoop uid count db1 rng []
        (r.1, r.2.1, BuyRes.bought r.2.2)
      else
        let r := drawPickLoop db1.cards uid count db1 rng []
        (r.1, r.2.1, BuyRes.bought r.2.2)

/-- `msg_trade_offer` after the `inv#<id> <tg_id>` parse: ensure the recipient
account, check `SELECT user_id FROM inventory WHERE id=$1` against the sender,
and insert a `pending` trade row. -/
def msg_trade_offer (db0 : DB) (uid : Int) (inv_id : Nat) (to_user : Int) :
    DB × OfferRes :=
  let db := ensure_user db0 to_user
  let owner := (db.inventory.find? (fun i => i.id == inv_id)).map (·.userId)
  if owner == some uid then
    let t : Trade := { id := db.nextTradeId, fromUser := uid, toUser := to_user,
                       offeredInventoryId := inv_id, status := "pending" }
    ({ db with trades := db.trades ++ [t], nextTradeId := db.nextTradeId + 1 },
     OfferRes.created t.id)
  else (db, OfferRes.notOwner)

/-- `cb_trade_accept`: missing trade and wrong recipient are refused; otherwise
the offered inventory row is reassigned to `to_user` and the status set to
`accepted` — with no check of the current status or of current ownership. -/
def cb_trade_accept (db : DB) (uid : Int) (tr_id : Nat) : DB × AcceptRes :=
  match db.trades.find? (fun t => t.id == tr_id) with
  | none => (db, AcceptRes.notFound)
  | some tr =>
    if tr.toUser ≠ uid then (db, AcceptRes.notRecipient)
    else
      let dbA : DB := { db with inventory := db.inventory.map (fun i : InvItem =>
          if i.id == tr.offeredInventoryId then { i with userId := tr.toUser } else i) }
      ({ dbA with trades := dbA.trades.map (fun t : Trade =>
          if t.id == tr_id then { t with status := "accepted" } else t) },
       AcceptRes.ok)

/-- `cb_trade_reject`: `UPDATE trades SET status='rejected' WHERE id=$1` followed
by the unconditional reply — no existence check and no recipient argument. -/
def cb_trade_reject (db : DB) (tr_id : Nat) : DB × String :=
  ({ db with trades := db.trades.map (fun t =>
      if t.id == tr_id then { t with status := "rejected" } else t) },
   "Заявка отклонена")

/-- An interleaving step for the balance invariant: a shop purchase or one
accrual tick of the income job. -/
inductive EconOp
  | buy (uid : Int) (count : Nat) (price : Int) (rng : List Nat)
  | tick

/-- Run a sequence of purchases and accrual ticks. -/
def runEcon (db : DB) : List EconOp → DB
  | [] => db
  | EconOp.buy uid count price rng :: ops => runEcon (_buy_pack db uid count price rng).1 ops
  | EconOp.tick :: ops => runEcon (give_passive_income_all db) ops

/-- Every stored balance is nonnegative. -/
def nonnegBalances (db : DB) : Prop := ∀ u ∈ db.users, 0 ≤ u.coins

/-- tg_id is a primary key: the stored user ids are pairwise distinct. -/
def uniqueUserIds (db : DB) : Prop := (db.users.map (·.tgId)).Nodup

/-! ### Concrete databases used by witnesses and counterexamples -/

/-- The rarity bucket (with whole-snapshot fallback) selected by one slot of
the populated-catalog path. -/
def pickBucket (snapshot : List Card) (rng : List Nat) : List Card :=
  let rarity := weightedPick get_weights_and_rarities.1 get_weights_and_rarities.2 (rngNext rng).1
  let bucket0 := snapshot.filter (fun c => c.rarity == rarity)
  if bucket0.isEmpty then snapshot else bucket0

/-- The card drawn by one slot of the populated-catalog path. -/
def pickChoice (snapshot : List Card) (rng : List Nat) : Card :=
  uniformPick (pickBucket snapshot rng) (rngNext (rngNext rng).2).1

def dbEmpty : DB :=
  { cards := [], users := [], inventory := [], trades := [],
    nextCardId := 1, nextInvId := 1, nextTradeId := 1 }

def dbC9 : DB :=
  { cards := [{ id := 1, name := "a", rarity := "rare", coinsPerHour := 3, imageFileId := none },
              { id := 2, name := "b", rarity := "epic", coinsPerHour := 8, imageFileId := none }],
    users := [{ tgId := 1, lastPack := 0, coins := 5 }],
    inventory := [{ id := 1, userId := 1, cardId := 1 }, { id := 2, userId := 1, cardId := 2 }],
    trades := [], nextCardId := 3, nextInvId := 3, nextTradeId := 1 }

def dbC7 : DB :=
  { cards := [{ id := 1, name := "c", rarity := "common", coinsPerHour := 1, imageFileId := none }],
    users := [{ tgId := 1, lastPack := 0, coins := 0 }, { tgId := 2, lastPack := 0, coins := 0 }],
    inventory := [{ id := 5, userId := 1, cardId := 1 }],
    trades := [], nextCardId := 2, nextInvId := 6, nextTradeId := 1 }

def dbC6 : DB :=
  { cards := [],
    users := [{ tgId := 1, lastPack := 0, coins := 0 }, { tgId := 2, lastPack := 0, coins := 0 }],
    inventory := [{ id := 1, userId := 1, cardId := 3 }],
    trades := [{ id := 1, fromUser := 1, toUser := 2, offeredInventoryId := 1, status := "pending" }],
    nextCardId := 1, nextInvId := 2, nextTradeId := 2 }

def dbC5 : DB :=
  { cards := [], users := [{ tgId := 1, lastPack := 0, coins := 59 }],
    inventory := [], trades := [], nextCardId := 1, nextInvId := 1, nextTradeId := 1 }

def dbC4 : DB :=
  { cards := [], users := [{ tgId := 1, lastPack := 0, coins := 0 }],
    inventory := [], trades := [], nextCardId := 1, nextInvId := 1, nextTradeId := 1 }

def dbC1 : DB :=
  { cards := [],
    users := [{ tgId := 1, lastPack := 0, coins := 0 }, { tgId := 2, lastPack := 0, coins := 0 }],
    inventory := [{ id := 1, userId := 2, cardId := 7 }],
    trades := [{ id := 1, fromUser := 1, toUser := 2, offeredInventoryId := 1, status := "accepted" }],
    nextCardId := 1, nextInvId := 2, nextTradeId := 2 }

def dbC2 : DB :=
  { cards := [],
    users := [{ tgId := 1, lastPack := 0, coins := 0 }, { tgId := 2, lastPack := 0, coins := 0 },
              { tgId := 5, lastPack := 0, coins := 0 }],
    inventory := [{ id := 3, userId := 5, cardId := 9 }],
    trades := [{ id := 1, fromUser := 1, toUser := 2, offeredInventoryId := 3, status := "pending" }],
    nextCardId := 1, nextInvId := 4, nextTradeId := 2 }

def dbC8 : DB :=
  { cards := [{ id := 1, name := "c", rarity := "common", coinsPerHour := 1, imageFileId := none }],
    users := [{ tgId := 1, lastPack := 0, coins := 100 }],
    inventory := [], trades := [], nextCardId := 2, nextInvId := 1, nextTradeId := 1 }

def dbC8e : DB :=
  { cards := [], users := [{ tgId := 1, lastPack := 0, coins := 100 }],
    inventory := [], trades := [], nextCardId := 1, nextInvId := 1, nextTradeId := 1 }

/-! ### General list helpers -/

theorem listFindMapPres {α : Type} (p : α → Bool) (f : α → α) (hf : ∀ a, p (f a) = p a) :
    ∀ l : List α, (l.map f).find? p = (l.find? p).map f := by
  intro l
  induction l with
  | nil => rfl
  | cons a t ih =>
    by_cases h : p a = true
    · rw [List.map_cons, List.find?_cons_of_pos _ (by rw [hf]; exact h),
        List.find?_cons_of_pos _ h, Option.map_some']
    · rw [List.map_cons, List.find?_cons_of_neg _ (by rw [hf]; exact h),
        List.find?_cons_of_neg _ h, ih]

theorem listMapEqSelf {α : Type} {f : α → α} {l : List α} (h : ∀ a ∈ l, f a = a) :
    l.map f = l := by
  rw [List.map_congr_left h]
  simp

theorem listMapIdem {α : Type} {f : α → α} (hf : ∀ a, f (f a) = f a) (l : List α) :
    (l.map f).map f = l.map f := by
  rw [List.map_map]
  exact List.map_congr_left fun a _ => hf a

/-- uniform selection from a nonempty list stays inside the list. -/
theorem uniformPick_mem (l : List Card) (r : Nat) (h : l ≠ []) : uniformPick l r ∈ l := by
  have hl : 0 < l.length := List.length_pos.mpr h
  have hm : r % l.length < l.length := Nat.mod_lt _ hl
  unfold uniformPick
  rw [List.getD_eq_getElem _ _ hm]
  exact List.getElem_mem hm

/-- a user found by id makes `ensure_user` a no-op. -/
theorem ensure_user_of_found (db : DB) (uid : Int) (u : UserRow)
    (hu : db.users.find? (fun v => v.tgId == uid) = some u) :
    ensure_user db uid = db := by
  unfold ensure_user
  rw [if_pos]
  refine List.any_eq_true.mpr ⟨u, List.mem_of_find?_eq_some hu, ?_⟩
  have hp := List.find?_some hu
  exact hp

/-! ### Effect lemmas for the slot loops -/

theorem insertInv_filter_len (db : DB) (uid : Int) (cid : Nat) :
    ((insertInv db uid cid).inventory.filter (fun i => i.userId == uid)).length
      = (db.inventory.filter (fun i => i.userId == uid)).length + 1 := by
  simp [insertInv, List.filter_append]

theorem drawPickLoop_spec (snapshot : List Card) (uid : Int) :
    ∀ (n : Nat) (db : DB) (rng : List Nat) (got : List Card),
      (drawPickLoop snapshot uid n db rng got).1.users = db.users ∧
      (drawPickLoop snapshot uid n db rng got).1.cards = db.cards ∧
      (drawPickLoop snapshot uid n db rng got).1.trades = db.trades ∧
      (drawPickLoop snapshot uid n db rng got).2.2.length = got.length + n ∧
      ((drawPickLoop snapshot uid n db rng got).1.inventory.filter
          (fun i => i.userId == uid)).length
        = (db.inventory.filter (fun i => i.userId == uid)).length + n := by
  intro n
  induction n with
  | zero => intro db rng got; simp [drawPickLoop]
  | succ m ih =>
    intro db rng got
    have step := ih (insertInv db uid (uniformPick
        (if (snapshot.filter (fun c => c.rarity ==
              weightedPick get_weights_and_rarities.1 get_weights_and_rarities.2
                (rngNext rng).1)).isEmpty
         then snapshot
         else snapshot.filter (fun c => c.rarity ==
              weightedPick get_weights_and_rarities.1 get_weights_and_rarities.2
                (rngNext rng).1))
        (rngNext (rngNext rng).2).1).id)
      (rngNext (rngNext rng).2).2
      (got ++ [uniformPick
        (if (snapshot.filter (fun c => c.rarity ==
              weightedPick get_weights_and_rarities.1 get_weights_and_rarities.2
                (rngNext rng).1)).isEmpty
         then snapshot
         else snapshot.filter (fun c => c.rarity ==
              weightedPick get_weights_and_rarities.1 get_weights_and_rarities.2
                (rngNext rng).1))
        (rngNext (rngNext rng).2).1])
    rw [drawPickLoop]
    refine ⟨step.1, step.2.1, step.2.2.1, ?_, ?_⟩
    · rw [step.2.2.2.1]; simp; omega
    · rw [step.2.2.2.2, insertInv_filter_len]; omega

theorem drawPickLoop_succ_eq (snapshot : List Card) (uid : Int) (n : Nat) (db : DB)
    (rng : List Nat) (got : List Card) :
    drawPickLoop snapshot uid (n + 1) db rng got
      = drawPickLoop snapshot uid n (insertInv db uid (pickChoice snapshot rng).id)
          (rngNext (rngNext rng).2).2 (got ++ [pickChoice snapshot rng]) := rfl

theorem pickChoice_mem (snapshot : List Card) (rng : List Nat) (hs : snapshot ≠ []) :
    pickChoice snapshot rng ∈ snapshot := by
  unfold pickChoice pickBucket
  by_cases hb : (snapshot.filter (fun c => c.rarity ==
      weightedPick get_weights_and_rarities.1 get_weights_and_rarities.2 (rngNext rng).1)).isEmpty
  · simp only [hb, if_pos]
    exact uniformPick_mem _ _ hs
  · simp only [hb]
    rw [if_neg (by simpa using hb)]
    have hne : (snapshot.filter (fun c => c.rarity ==
        weightedPick get_weights_and_rarities.1 get_weights_and_rarities.2 (rngNext rng).1)) ≠ [] := by
      intro h
      rw [h] at hb
      exact hb rfl
    exact (List.mem_filter.mp (uniformPick_mem _ _ hne)).1

theorem drawPickLoop_mem (snapshot : List Card) (uid : Int) (hs : snapshot ≠ []) :
    ∀ (n : Nat) (db : DB) (rng : List Nat) (got : List Card),
      ∀ c ∈ (drawPickLoop snapshot uid n db rng got).2.2, c ∈ got ∨ c ∈ snapshot := by
  intro n
  induction n with
  | zero =>
    intro db rng got c hc
    rw [drawPickLoop] at hc
    exact Or.inl hc
  | succ m ih =>
    intro db rng got c hc
    rw [drawPickLoop_succ_eq] at hc
    rcases ih _ _ _ c hc with h | h
    · rcases List.mem_append.mp h with h1 | h1
      · exact Or.inl h1
      · have hc2 : c = pickChoice snapshot rng := List.mem_singleton.mp h1
        exact Or.inr (hc2 ▸ pickChoice_mem snapshot rng hs)
    · exact Or.inr h

theorem drawBootstrapLoop_spec (uid : Int) :
    ∀ (n : Nat) (db : DB) (rng : List Nat) (got : List Card),
      (drawBootstrapLoop uid n db rng got).1.users = db.users ∧
      (drawBootstrapLoop uid n db rng got).1.trades = db.trades ∧
      (drawBootstrapLoop uid n db rng got).2.2.length = got.length + n ∧
      ((drawBootstrapLoop uid n db rng got).1.inventory.filter
          (fun i => i.userId == uid)).length
        = (db.inventory.filter (fun i => i.userId == uid)).length + n := by
  intro n
  induction n with
  | zero =>
    intro db rng got
    rw [drawBootstrapLoop]
    exact ⟨rfl, rfl, rfl, rfl⟩
  | succ m ih =>
    intro db rng got
    simp only [drawBootstrapLoop]
    split
    · refine ⟨(ih _ _ _).1, (ih _ _ _).2.1, ?_, ?_⟩
      · refine Eq.trans ((ih _ _ _).2.2.1) ?_
        simp only [List.length_append, List.length_cons, List.length_nil]
        omega
      · refine Eq.trans ((ih _ _ _).2.2.2) ?_
        rw [insertInv_filter_len]
        simp only []
        omega
    · refine ⟨(ih _ _ _).1, (ih _ _ _).2.1, ?_, ?_⟩
      · refine Eq.trans ((ih _ _ _).2.2.1) ?_
        simp only [List.length_append, List.length_cons, List.length_nil]
        omega
      · refine Eq.trans ((ih _ _ _).2.2.2) ?_
        rw [insertInv_filter_len]
        omega

theorem buyEmptyLoop_spec (uid : Int) :
    ∀ (n : Nat) (db : DB) (rng : List Nat) (got : List Card),
      (buyEmptyLoop uid n db rng got).1.users = db.users ∧
      (buyEmptyLoop uid n db rng got).1.trades = db.trades ∧
      (buyEmptyLoop uid n db rng got).2.2.length = got.length + n ∧
      ((buyEmptyLoop uid n db rng got).1.inventory.filter
          (fun i => i.userId == uid)).length
        = (db.inventory.filter (fun i => i.userId == uid)).length + n ∧
      (buyEmptyLoop uid n db rng got).1.cards.length = db.cards.length + n ∧
      (∀ c ∈ (buyEmptyLoop uid n db rng got).2.2,
        c ∈ got ∨ c.coinsPerHour = rarityDefaultIncome c.rarity) := by
  intro n
  induction n with
  | zero =>
    intro db rng got
    rw [buyEmptyLoop]
    exact ⟨rfl, rfl, rfl, rfl, rfl, fun c hc => Or.inl hc⟩
  | succ m ih =>
    intro db rng got
    simp only [buyEmptyLoop]
    refine ⟨(ih _ _ _).1, (ih _ _ _).2.1, ?_, ?_, ?_, ?_⟩
    · refine Eq.trans ((ih _ _ _).2.2.1) ?_
      simp only [List.length_append, List.length_cons, List.length_nil]
      omega
    · refine Eq.trans ((ih _ _ _).2.2.2.1) ?_
      rw [insertInv_filter_len]
      simp only []
      omega
    · refine Eq.trans ((ih _ _ _).2.2.2.2.1) ?_
      simp only [insertInv]
      simp only [List.length_append, List.length_cons, List.length_nil]
      omega
    · intro c hc
      rcases (ih _ _ _).2.2.2.2.2 c hc with h | h
      · rcases List.mem_append.mp h with h1 | h1
        · exact Or.inl h1
        · right
          have hc2 := List.mem_singleton.mp h1
          rw [hc2]
      · exact Or.inr h

/-! ### Frame and lookup helpers for the handlers -/

theorem ensure_user_frame (db : DB) (t : Int) :
    (ensure_user db t).cards = db.cards ∧ (ensure_user db t).inventory = db.inventory ∧
    (ensure_user db t).trades = db.trades ∧ (ensure_user db t).nextCardId = db.nextCardId ∧
    (ensure_user db t).nextInvId = db.nextInvId ∧ (ensure_user db t).nextTradeId = db.nextTradeId := by
  unfold ensure_user
  split <;> exact ⟨rfl, rfl, rfl, rfl, rfl, rfl⟩

/-- looking the user up after a conditional per-user update returns the updated row. -/
theorem cond_update_find (uid : Int) (g : UserRow → UserRow)
    (hg : ∀ v, (g v).tgId = v.tgId) (l : List UserRow) (u : UserRow)
    (hu : l.find? (fun v => v.tgId == uid) = some u) :
    (l.map (fun v => if v.tgId == uid then g v else v)).find? (fun v => v.tgId == uid)
      = some (g u) := by
  have hf : ∀ a : UserRow,
      ((fun v : UserRow => v.tgId == uid) (if a.tgId == uid then g a else a))
        = ((fun v : UserRow => v.tgId == uid) a) := by
    intro a
    by_cases h : (a.tgId == uid) = true
    · rw [if_pos h]
      show ((g a).tgId == uid) = (a.tgId == uid)
      rw [hg]
    · rw [if_neg h]
  rw [listFindMapPres _ _ hf, hu, Option.map_some']
  have hp : (u.tgId == uid) = true := by simpa using List.find?_some hu
  rw [if_pos hp]


/-! ### Claims -/

/-- C10: `ensure_user` is idempotent at the interface: a missing account is
created with coins 0 and the epoch-start sentinel for last_pack, an existing
account is left untouched, and a second call changes nothing. -/
theorem C10_ensure_user_idempotent (db : DB) (uid : Int) :
    (db.users.find? (fun v => v.tgId == uid) = none →
      ensure_user db uid
        = { db with users := db.users ++ [{ tgId := uid, lastPack := 0, coins := 0 }] }) ∧
    (∀ u, db.users.find? (fun v => v.tgId == uid) = some u → ensure_user db uid = db) ∧
    ensure_user (ensure_user db uid) uid = ensure_user db uid := by
  refine ⟨?_, ?_, ?_⟩
  · intro h
    unfold ensure_user
    rw [if_neg]
    intro hany
    obtain ⟨x, hx, hpx⟩ := List.any_eq_true.mp hany
    exact (List.find?_eq_none.mp h x hx) hpx
  · intro u hu
    exact ensure_user_of_found db uid u hu
  · by_cases h : db.users.any (fun u => u.tgId == uid) = true
    · unfold ensure_user
      rw [if_pos h, if_pos h]
    · unfold ensure_user
      rw [if_neg h]
      have hx : (({ db with users := db.users ++ [{ tgId := uid, lastPack := 0, coins := 0 }] } :
          DB).users.any (fun u => u.tgId == uid)) = true := by
        simp
      rw [if_pos hx]

/-- C10 witness: creating account 7 in the empty database. -/
theorem C10_witness :
    ensure_user dbEmpty 7
      = { dbEmpty with users := dbEmpty.users ++ [{ tgId := 7, lastPack := 0, coins := 0 }] } :=
  (C10_ensure_user_idempotent dbEmpty 7).1 (by decide)

/-- C9: one accrual tick credits a user exactly the summed income of the
owned items when that sum is positive, and leaves the row (and every other
relation) completely unchanged when the user owns no items or the sum is 0. -/
theorem C9_accrual_exact (db : DB) (uid : Int) (u : UserRow)
    (hu : db.users.find? (fun v => v.tgId == uid) = some u) :
    (give_passive_income_all db).inventory = db.inventory ∧
    (give_passive_income_all db).cards = db.cards ∧
    (give_passive_income_all db).trades = db.trades ∧
    (0 < userIncome db uid →
      (give_passive_income_all db).users.find? (fun v => v.tgId == uid)
        = some { u with coins := u.coins + userIncome db uid }) ∧
    (db.inventory.filter (fun i => i.userId == uid) = [] ∨ userIncome db uid = 0 →
      (give_passive_income_all db).users.find? (fun v => v.tgId == uid) = some u) := by
  have htg : u.tgId = uid := by
    have := List.find?_some hu
    simpa using this
  have hf : ∀ a : UserRow,
      ((fun v : UserRow => v.tgId == uid)
        (if 0 < userIncome db a.tgId then { a with coins := a.coins + userIncome db a.tgId } else a))
        = ((fun v : UserRow => v.tgId == uid) a) := by
    intro a
    by_cases h : 0 < userIncome db a.tgId
    · rw [if_pos h]
    · rw [if_neg h]
  have hfind : (give_passive_income_all db).users.find? (fun v => v.tgId == uid)
      = some (if 0 < userIncome db u.tgId
              then { u with coins := u.coins + userIncome db u.tgId } else u) := by
    show ((db.users.map fun a : UserRow =>
        if 0 < userIncome db a.tgId then { a with coins := a.coins + userIncome db a.tgId } else a).find?
        (fun v => v.tgId == uid)) = _
    rw [listFindMapPres _ _ hf, hu, Option.map_some']
  refine ⟨rfl, rfl, rfl, ?_, ?_⟩
  · intro h
    rw [hfind, htg, if_pos h]
  · intro h
    have h0 : userIncome db uid = 0 := by
      rcases h with h | h
      · unfold userIncome
        rw [h]
        rfl
      · exact h
    rw [hfind, htg, h0]
    simp

/-- C9 witness: a user owning items with incomes 3 and 8 gains exactly 11. -/
theorem C9_witness :
    (give_passive_income_all dbC9).users.find? (fun v => v.tgId == 1)
      = some { tgId := 1, lastPack := 0, coins := 16 } :=
  (C9_accrual_exact dbC9 1 { tgId := 1, lastPack := 0, coins := 5 } (by decide)).2.2.2.1 (by decide)

/-- C7: createOffer fails with NotOwnerError (creating no offer) whenever the
item's current owner is not the sender, and otherwise appends exactly one
pending offer carrying the given from/to/item fields. -/
theorem C7_create_offer (db : DB) (uid : Int) (inv_id : Nat) (to_user : Int) :
    (¬ ((db.inventory.find? (fun i => i.id == inv_id)).map (fun i => i.userId) = some uid) →
      (msg_trade_offer db uid inv_id to_user).2 = OfferRes.notOwner ∧
      (msg_trade_offer db uid inv_id to_user).1.trades = db.trades) ∧
    ((db.inventory.find? (fun i => i.id == inv_id)).map (fun i => i.userId) = some uid →
      (msg_trade_offer db uid inv_id to_user).2 = OfferRes.created db.nextTradeId ∧
      (msg_trade_offer db uid inv_id to_user).1.trades
        = db.trades ++ [{ id := db.nextTradeId, fromUser := uid, toUser := to_user,
                          offeredInventoryId := inv_id, status := "pending" }]) := by
  have hfr := ensure_user_frame db to_user
  constructor
  · intro h
    have hb : ¬ ((((ensure_user db to_user).inventory.find? (fun i => i.id == inv_id)).map
        (fun i => i.userId)) == some uid) = true := by
      rw [hfr.2.1]
      intro hb
      exact h (by simpa using hb)
    unfold msg_trade_offer
    rw [if_neg hb]
    exact ⟨rfl, hfr.2.2.1⟩
  · intro h
    have hb : ((((ensure_user db to_user).inventory.find? (fun i => i.id == inv_id)).map
        (fun i => i.userId)) == some uid) = true := by
      rw [hfr.2.1]
      simpa using h
    unfold msg_trade_offer
    rw [if_pos hb]
    constructor
    · show OfferRes.created (ensure_user db to_user).nextTradeId = OfferRes.created db.nextTradeId
      rw [hfr.2.2.2.2.2]
    · show (ensure_user db to_user).trades
          ++ [{ id := (ensure_user db to_user).nextTradeId, fromUser := uid, toUser := to_user,
                offeredInventoryId := inv_id, status := "pending" }] = _
      rw [hfr.2.2.1, hfr.2.2.2.2.2]

/-- C7 witness: user 1 offers the item inv#5 it owns to user 2. -/
theorem C7_witness :
    (msg_trade_offer dbC7 1 5 2).2 = OfferRes.created dbC7.nextTradeId ∧
    (msg_trade_offer dbC7 1 5 2).1.trades
      = dbC7.trades ++ [{ id := dbC7.nextTradeId, fromUser := 1, toUser := 2,
                          offeredInventoryId := 5, status := "pending" }] :=
  (C7_create_offer dbC7 1 5 2).2 (by decide)

/-- C6 (amended): the reject handler takes only the trade id and performs no
existence or recipient check: it always replies success, never touches the
inventory or the users, leaves the state unchanged when no trade matches, and
sets the status of a matching trade to rejected whatever its previous status
and whoever asks. -/
theorem C6_reject_unchecked (db : DB) (tr_id : Nat) :
    (cb_trade_reject db tr_id).1.inventory = db.inventory ∧
    (cb_trade_reject db tr_id).1.users = db.users ∧
    (cb_trade_reject db tr_id).2 = "Заявка отклонена" ∧
    (db.trades.find? (fun t => t.id == tr_id) = none → (cb_trade_reject db tr_id).1 = db) ∧
    (∀ tr, db.trades.find? (fun t => t.id == tr_id) = some tr →
      (cb_trade_reject db tr_id).1.trades.find? (fun t => t.id == tr_id)
        = some { tr with status := "rejected" }) := by
  refine ⟨rfl, rfl, rfl, ?_, ?_⟩
  · intro h
    show ({ db with trades := db.trades.map (fun t =>
        if t.id == tr_id then { t with status := "rejected" } else t) } : DB) = db
    rw [listMapEqSelf]
    intro a ha
    rw [if_neg]
    exact List.find?_eq_none.mp h a ha
  · intro tr htr
    have hf : ∀ a : Trade,
        ((fun t : Trade => t.id == tr_id)
          (if a.id == tr_id then { a with status := "rejected" } else a))
          = ((fun t : Trade => t.id == tr_id) a) := by
      intro a
      by_cases hx : (a.id == tr_id) = true
      · rw [if_pos hx]
      · rw [if_neg hx]
    show ((db.trades.map (fun t => if t.id == tr_id then { t with status := "rejected" } else t)).find?
        (fun t => t.id == tr_id)) = _
    rw [listFindMapPres _ _ hf, htr, Option.map_some']
    have hp : (tr.id == tr_id) = true := by simpa using List.find?_some htr
    rw [if_pos hp]

/-- C6 witness: a matching pending trade is flipped to rejected without any
recipient information, and the inventory is untouched. -/
theorem C6_witness :
    (cb_trade_reject dbC6 1).1.trades.find? (fun t => t.id == 1)
      = some { id := 1, fromUser := 1, toUser := 2, offeredInventoryId := 1,
               status := "rejected" } :=
  (C6_reject_unchecked dbC6 1).2.2.2.2
    { id := 1, fromUser := 1, toUser := 2, offeredInventoryId := 1, status := "pending" }
    (by decide)

/-- C6 counterexample: rejecting the nonexistent trade id 99 raises no
NotFoundError — the handler replies success and the state is unchanged — and
the operation receives no byUserId, so a NotRecipientError cannot occur. -/
theorem C6_counterexample :
    cb_trade_reject dbC6 99 = (dbC6, "Заявка отклонена") := by decide

/-- C5: a purchase with balance below the price fails with no state change at
all; with sufficient balance it debits exactly the price and grants exactly
`count` inventory items to the purchaser. -/
theorem C5_buy_pack_exact (db : DB) (uid : Int) (count : Nat) (price : Int)
    (rng : List Nat) (u : UserRow)
    (hu : db.users.find? (fun v => v.tgId == uid) = some u) :
    (u.coins < price → _buy_pack db uid count price rng = (db, rng, BuyRes.insufficient)) ∧
    (price ≤ u.coins →
      ∃ db' rng' got, _buy_pack db uid count price rng = (db', rng', BuyRes.bought got) ∧
        got.length = count ∧
        db'.users.find? (fun v => v.tgId == uid) = some { u with coins := u.coins - price } ∧
        (db'.inventory.filter (fun i => i.userId == uid)).length
          = (db.inventory.filter (fun i => i.userId == uid)).length + count) := by
  obtain ⟨db1, hdb1⟩ : ∃ db1 : DB, db1 = { db with users := db.users.map (fun v =>
      if v.tgId == uid then { v with coins := v.coins - price } else v) } := ⟨_, rfl⟩
  constructor
  · intro h
    unfold _buy_pack
    rw [hu]
    simp only []
    rw [if_pos h]
  · intro h
    unfold _buy_pack
    rw [hu]
    simp only []
    rw [if_neg (not_lt.mpr h), ← hdb1]
    by_cases hc : db.cards.isEmpty = true
    · rw [if_pos hc]
      have hs := buyEmptyLoop_spec uid count db1 rng []
      refine ⟨_, _, _, rfl, ?_, ?_, ?_⟩
      · rw [hs.2.2.1]
        simp
      · rw [hs.1, hdb1]
        exact cond_update_find uid (fun v => { v with coins := v.coins - price })
          (fun v => rfl) db.users u hu
      · rw [hs.2.2.2.1, hdb1]
    · rw [if_neg hc]
      have hs := drawPickLoop_spec db.cards uid count db1 rng []
      refine ⟨_, _, _, rfl, ?_, ?_, ?_⟩
      · rw [hs.2.2.2.1]
        simp
      · rw [hs.1, hdb1]
        exact cond_update_find uid (fun v => { v with coins := v.coins - price })
          (fun v => rfl) db.users u hu
      · rw [hs.2.2.2.2, hdb1]

/-- C5 witness: buying 10 for 60 with balance 59 fails and changes nothing. -/
theorem C5_witness :
    _buy_pack dbC5 1 10 60 [] = (dbC5, [], BuyRes.insufficient) :=
  (C5_buy_pack_exact dbC5 1 10 60 [] { tgId := 1, lastPack := 0, coins := 59 }
    (by decide)).1 (by decide)

/-- C4: a claim inside the cooldown fails with the remaining whole minutes and
mutates nothing at all; once the cooldown has elapsed the claim stamps
last_pack = now and grants exactly five cards. -/
theorem C4_free_pack_cooldown (db : DB) (uid : Int) (now : Int) (rng : List Nat) (u : UserRow)
    (hu : db.users.find? (fun v => v.tgId == uid) = some u) :
    (now - u.lastPack < COOLDOWN_MINUTES * 60 →
      cb_free_pack db uid now rng
        = (db, rng, FreeRes.cooldown ((COOLDOWN_MINUTES * 60 - (now - u.lastPack)) / 60))) ∧
    (COOLDOWN_MINUTES * 60 ≤ now - u.lastPack →
      ∃ db' rng' got, cb_free_pack db uid now rng = (db', rng', FreeRes.granted got) ∧
        got.length = 5 ∧
        db'.users.find? (fun v => v.tgId == uid) = some { u with lastPack := now } ∧
        (db'.inventory.filter (fun i => i.userId == uid)).length
          = (db.inventory.filter (fun i => i.userId == uid)).length + 5) := by
  have hens : ensure_user db uid = db := ensure_user_of_found db uid u hu
  obtain ⟨db1, hdb1⟩ : ∃ db1 : DB, db1 = { db with users := db.users.map (fun v =>
      if v.tgId == uid then { v with lastPack := now } else v) } := ⟨_, rfl⟩
  constructor
  · intro h
    unfold cb_free_pack
    rw [hens]
    simp only []
    rw [hu]
    simp only [Option.map_some', Option.getD_some]
    rw [if_pos h]
  · intro h
    unfold cb_free_pack
    rw [hens]
    simp only []
    rw [hu]
    simp only [Option.map_some', Option.getD_some]
    rw [if_neg (not_lt.mpr h), ← hdb1]
    by_cases hc : 5 ≤ db.cards.length
    · rw [if_pos hc]
      have hs := drawPickLoop_spec db.cards uid 5 db1 rng []
      refine ⟨_, _, _, rfl, ?_, ?_, ?_⟩
      · rw [hs.2.2.2.1]
        simp
      · rw [hs.1, hdb1]
        exact cond_update_find uid (fun v => { v with lastPack := now })
          (fun v => rfl) db.users u hu
      · rw [hs.2.2.2.2, hdb1]
    · rw [if_neg hc]
      have hs := drawBootstrapLoop_spec uid 5 db1 rng []
      refine ⟨_, _, _, rfl, ?_, ?_, ?_⟩
      · rw [hs.2.2.1]
        simp
      · rw [hs.1, hdb1]
        exact cond_update_find uid (fun v => { v with lastPack := now })
          (fun v => rfl) db.users u hu
      · rw [hs.2.2.2, hdb1]

/-- C4 witness: a second claim 100 seconds after the stamp fails with 28
remaining minutes and leaves the database untouched. -/
theorem C4_witness :
    cb_free_pack dbC4 1 100 [] = (dbC4, [], FreeRes.cooldown 28) :=
  (C4_free_pack_cooldown dbC4 1 100 [] { tgId := 1, lastPack := 0, coins := 0 }
    (by decide)).1 (by decide)

/-- the accept handler on a found offer with the matching recipient: the
offered item is reassigned and the status set, with no other condition. -/
theorem accept_eq_of_found (db : DB) (uid : Int) (tr_id : Nat) (tr : Trade)
    (hfind : db.trades.find? (fun t => t.id == tr_id) = some tr)
    (hto : tr.toUser = uid) :
    cb_trade_accept db uid tr_id
      = ({ db with
            inventory := db.inventory.map (fun i =>
              if i.id == tr.offeredInventoryId then { i with userId := tr.toUser } else i),
            trades := db.trades.map (fun t =>
              if t.id == tr_id then { t with status := "accepted" } else t) },
         AcceptRes.ok) := by
  unfold cb_trade_accept
  rw [hfind]
  simp only []
  rw [if_neg (fun hne => hne hto)]

/-- C1 counterexample: offer 1 is already terminal (accepted), yet a further
accept by the recipient returns ok — no AlreadyResolvedError exists — and a
reject afterwards still overwrites the terminal status. -/
theorem C1_counterexample :
    (cb_trade_accept dbC1 2 1).2 = AcceptRes.ok ∧
    (cb_trade_reject dbC1 1).1.trades
      = [{ id := 1, fromUser := 1, toUser := 2, offeredInventoryId := 1,
           status := "rejected" }] := by
  decide

/-- C1 (amended): accept checks only existence and the recipient, never the
status: accepting an offer addressed to the caller succeeds whatever its
current status; a second accept succeeds again and leaves the state exactly
as after the first (so ownership changes at most once across the two calls);
and reject still overwrites the status of an accepted offer. -/
theorem C1_accept_no_terminal_check (db : DB) (uid : Int) (tr_id : Nat) (tr : Trade)
    (hfind : db.trades.find? (fun t => t.id == tr_id) = some tr)
    (hto : tr.toUser = uid) :
    (cb_trade_accept db uid tr_id).2 = AcceptRes.ok ∧
    cb_trade_accept (cb_trade_accept db uid tr_id).1 uid tr_id
      = ((cb_trade_accept db uid tr_id).1, AcceptRes.ok) ∧
    ((cb_trade_reject (cb_trade_accept db uid tr_id).1 tr_id).1.trades.find?
        (fun t => t.id == tr_id)) = some { tr with status := "rejected" } := by
  have hid : (tr.id == tr_id) = true := by simpa using List.find?_some hfind
  have h1 := accept_eq_of_found db uid tr_id tr hfind hto
  have hfT : ∀ a : Trade,
      ((fun t : Trade => t.id == tr_id)
        (if a.id == tr_id then { a with status := "accepted" } else a))
        = ((fun t : Trade => t.id == tr_id) a) := by
    intro a
    by_cases hx : (a.id == tr_id) = true
    · rw [if_pos hx]
    · rw [if_neg hx]
  have hfT2 : ∀ a : Trade,
      ((fun t : Trade => t.id == tr_id)
        (if a.id == tr_id then { a with status := "rejected" } else a))
        = ((fun t : Trade => t.id == tr_id) a) := by
    intro a
    by_cases hx : (a.id == tr_id) = true
    · rw [if_pos hx]
    · rw [if_neg hx]
  have hfind2 : (cb_trade_accept db uid tr_id).1.trades.find? (fun t => t.id == tr_id)
      = some { tr with status := "accepted" } := by
    rw [h1]
    show ((db.trades.map (fun t =>
        if t.id == tr_id then { t with status := "accepted" } else t)).find?
        (fun t => t.id == tr_id)) = _
    rw [listFindMapPres _ _ hfT, hfind, Option.map_some', if_pos hid]
  have h2 := accept_eq_of_found (cb_trade_accept db uid tr_id).1 uid tr_id
      { tr with status := "accepted" } hfind2 hto
  refine ⟨by rw [h1], ?_, ?_⟩
  · rw [h2]
    have hII : ∀ i : InvItem,
        (fun j : InvItem =>
          if j.id == tr.offeredInventoryId then { j with userId := tr.toUser } else j)
          ((fun j : InvItem =>
            if j.id == tr.offeredInventoryId then { j with userId := tr.toUser } else j) i)
        = (fun j : InvItem =>
          if j.id == tr.offeredInventoryId then { j with userId := tr.toUser } else j) i := by
      intro i
      by_cases hx : (i.id == tr.offeredInventoryId) = true <;> simp [hx]
    have hTT : ∀ a : Trade,
        (fun t : Trade => if t.id == tr_id then { t with status := "accepted" } else t)
          ((fun t : Trade => if t.id == tr_id then { t with status := "accepted" } else t) a)
        = (fun t : Trade => if t.id == tr_id then { t with status := "accepted" } else t) a := by
      intro a
      by_cases hx : (a.id == tr_id) = true <;> simp [hx]
    rw [h1]
    show (({ db with
          inventory := (db.inventory.map _).map _,
          trades := (db.trades.map _).map _ } : DB), AcceptRes.ok) = _
    rw [listMapIdem hII, listMapIdem hTT]
  · rw [h1]
    show ((((db.trades.map (fun t =>
        if t.id == tr_id then { t with status := "accepted" } else t))).map (fun t =>
        if t.id == tr_id then { t with status := "rejected" } else t)).find?
        (fun t => t.id == tr_id)) = _
    rw [listFindMapPres _ _ hfT2, listFindMapPres _ _ hfT, hfind, Option.map_some',
      Option.map_some', if_pos hid]
    show some (if ({ tr with status := "accepted" } : Trade).id == tr_id then _ else _) = _
    rw [if_pos (show (({ tr with status := "accepted" } : Trade).id == tr_id) = true from hid)]

/-- C1 witness: the amended behavior at the concrete already-accepted offer. -/
theorem C1_witness :
    (cb_trade_accept dbC1 2 1).2 = AcceptRes.ok ∧
    cb_trade_accept (cb_trade_accept dbC1 2 1).1 2 1
      = ((cb_trade_accept dbC1 2 1).1, AcceptRes.ok) ∧
    ((cb_trade_reject (cb_trade_accept dbC1 2 1).1 1).1.trades.find?
        (fun t => t.id == 1))
      = some { id := 1, fromUser := 1, toUser := 2, offeredInventoryId := 1,
               status := "rejected" } :=
  C1_accept_no_terminal_check dbC1 2 1
    { id := 1, fromUser := 1, toUser := 2, offeredInventoryId := 1, status := "accepted" }
    (by decide) (by decide)

/-- C2 counterexample: the pending offer 1 offers item 3, whose current owner
is user 5 and no longer the offerer 1; accepting still succeeds and reassigns
the item to the recipient instead of failing with a distinct error. -/
theorem C2_counterexample :
    (cb_trade_accept dbC2 2 1).2 = AcceptRes.ok ∧
    (cb_trade_accept dbC2 2 1).1.inventory = [{ id := 3, userId := 2, cardId := 9 }] := by
  decide

/-- C2 (amended): accept never re-validates current ownership: whenever the
offer exists and the caller is its recipient, the offered item is reassigned
to the recipient whatever its current owner — also when the offerer no longer
owns it — and no distinct error for lost ownership exists. -/
theorem C2_accept_no_ownership_check (db : DB) (uid : Int) (tr_id : Nat) (tr : Trade)
    (it : InvItem)
    (hfind : db.trades.find? (fun t => t.id == tr_id) = some tr)
    (hto : tr.toUser = uid)
    (hit : db.inventory.find? (fun i => i.id == tr.offeredInventoryId) = some it) :
    (cb_trade_accept db uid tr_id).2 = AcceptRes.ok ∧
    (cb_trade_accept db uid tr_id).1.inventory.find? (fun i => i.id == tr.offeredInventoryId)
      = some { it with userId := tr.toUser } := by
  have h1 := accept_eq_of_found db uid tr_id tr hfind hto
  have hfI : ∀ a : InvItem,
      ((fun i : InvItem => i.id == tr.offeredInventoryId)
        (if a.id == tr.offeredInventoryId then { a with userId := tr.toUser } else a))
        = ((fun i : InvItem => i.id == tr.offeredInventoryId) a) := by
    intro a
    by_cases hx : (a.id == tr.offeredInventoryId) = true
    · rw [if_pos hx]
    · rw [if_neg hx]
  refine ⟨by rw [h1], ?_⟩
  rw [h1]
  show ((db.inventory.map (fun i =>
      if i.id == tr.offeredInventoryId then { i with userId := tr.toUser } else i)).find?
      (fun i => i.id == tr.offeredInventoryId)) = _
  rw [listFindMapPres _ _ hfI, hit, Option.map_some']
  rw [if_pos (show (it.id == tr.offeredInventoryId) = true by simpa using List.find?_some hit)]

/-- C2 witness: the amended behavior at the concrete lost-ownership offer. -/
theorem C2_witness :
    (cb_trade_accept dbC2 2 1).2 = AcceptRes.ok ∧
    (cb_trade_accept dbC2 2 1).1.inventory.find? (fun i => i.id == 3)
      = some { id := 3, userId := 2, cardId := 9 } :=
  C2_accept_no_ownership_check dbC2 2 1
    { id := 1, fromUser := 1, toUser := 2, offeredInventoryId := 3, status := "pending" }
    { id := 3, userId := 5, cardId := 9 }
    (by decide) (by decide) (by decide)

/-- one accrual tick keeps user ids unique and balances nonnegative: the only
credit applied is a strictly positive income sum. -/
theorem tick_preserves (db : DB) (h1 : uniqueUserIds db) (h2 : nonnegBalances db) :
    uniqueUserIds (give_passive_income_all db) ∧
    nonnegBalances (give_passive_income_all db) := by
  constructor
  · unfold uniqueUserIds give_passive_income_all
    simp only []
    rw [List.map_map]
    have hcomp : ((fun u : UserRow => u.tgId) ∘ (fun u : UserRow =>
        if 0 < userIncome db u.tgId
        then { u with coins := u.coins + userIncome db u.tgId } else u))
        = (fun u : UserRow => u.tgId) := by
      funext a
      show (if 0 < userIncome db a.tgId
            then { a with coins := a.coins + userIncome db a.tgId } else a).tgId = a.tgId
      by_cases hx : 0 < userIncome db a.tgId
      · rw [if_pos hx]
      · rw [if_neg hx]
    rw [hcomp]
    exact h1
  · intro v hv
    unfold give_passive_income_all at hv
    simp only [] at hv
    obtain ⟨w, hw, hfw⟩ := List.mem_map.mp hv
    by_cases hx : 0 < userIncome db w.tgId
    · rw [if_pos hx] at hfw
      rw [← hfw]
      show 0 ≤ w.coins + userIncome db w.tgId
      have hcw := h2 w hw
      omega
    · rw [if_neg hx] at hfw
      rw [← hfw]
      exact h2 w hw

/-- a purchase keeps user ids unique and balances nonnegative: the debit only
happens after the balance check, and the draw loops never touch the users. -/
theorem buy_preserves (db : DB) (uid : Int) (count : Nat) (price : Int) (rng : List Nat)
    (h1 : uniqueUserIds db) (h2 : nonnegBalances db) :
    uniqueUserIds (_buy_pack db uid count price rng).1 ∧
    nonnegBalances (_buy_pack db uid count price rng).1 := by
  obtain ⟨db1, hdb1⟩ : ∃ db1 : DB, db1 = { db with users := db.users.map (fun v =>
      if v.tgId == uid then { v with coins := v.coins - price } else v) } := ⟨_, rfl⟩
  have hkeys : (db.users.map (fun v =>
      if v.tgId == uid then { v with coins := v.coins - price } else v)).map
      (fun u : UserRow => u.tgId) = db.users.map (fun u : UserRow => u.tgId) := by
    rw [List.map_map]
    apply List.map_congr_left
    intro a _
    show (if a.tgId == uid then { a with coins := a.coins - price } else a).tgId = a.tgId
    by_cases hx : (a.tgId == uid) = true
    · rw [if_pos hx]
    · rw [if_neg hx]
  cases hfind : db.users.find? (fun v => v.tgId == uid) with
  | none =>
    unfold _buy_pack
    rw [hfind]
    exact ⟨h1, h2⟩
  | some u =>
    by_cases hp : u.coins < price
    · unfold _buy_pack
      rw [hfind]
      simp only []
      rw [if_pos hp]
      exact ⟨h1, h2⟩
    · have hg1 : uniqueUserIds db1 := by
        unfold uniqueUserIds
        rw [hdb1]
        simp only []
        rw [hkeys]
        exact h1
      have hg2 : nonnegBalances db1 := by
        intro v hv
        rw [hdb1] at hv
        simp only [] at hv
        obtain ⟨w, hw, hfw⟩ := List.mem_map.mp hv
        by_cases hx : (w.tgId == uid) = true
        · rw [if_pos hx] at hfw
          have hmu : u ∈ db.users := List.mem_of_find?_eq_some hfind
          have hpu : (u.tgId == uid) = true := by simpa using List.find?_some hfind
          have hweq : w = u := by
            refine List.inj_on_of_nodup_map h1 hw hmu ?_
            have e1 : w.tgId = uid := by simpa using hx
            have e2 : u.tgId = uid := by simpa using hpu
            rw [e1, e2]
          rw [← hfw]
          show 0 ≤ w.coins - price
          rw [hweq]
          omega
        · rw [if_neg hx] at hfw
          rw [← hfw]
          exact h2 w hw
      unfold _buy_pack
      rw [hfind]
      simp only []
      rw [if_neg hp, ← hdb1]
      by_cases hc : db.cards.isEmpty = true
      · rw [if_pos hc]
        have hs := buyEmptyLoop_spec uid count db1 rng []
        refine ⟨?_, ?_⟩
        · show ((buyEmptyLoop uid count db1 rng []).1.users.map
            (fun u : UserRow => u.tgId)).Nodup
          rw [hs.1]
          exact hg1
        · intro v hv
          rw [hs.1] at hv
          exact hg2 v hv
      · rw [if_neg hc]
        have hs := drawPickLoop_spec db.cards uid count db1 rng []
        refine ⟨?_, ?_⟩
        · show ((drawPickLoop db.cards uid count db1 rng []).1.users.map
            (fun u : UserRow => u.tgId)).Nodup
          rw [hs.1]
          exact hg1
        · intro v hv
          rw [hs.1] at hv
          exact hg2 v hv

/-- C3: starting from distinct user ids and nonnegative balances, every
sequence of purchases and accrual ticks keeps every coin balance ≥ 0 — each
debit is guarded by the balance check and each accrual credit is a positive
sum. -/
theorem C3_balances_nonneg (db : DB) (ops : List EconOp)
    (h1 : uniqueUserIds db) (h2 : nonnegBalances db) :
    nonnegBalances (runEcon db ops) := by
  induction ops generalizing db with
  | nil => exact h2
  | cons op rest ih =>
    cases op with
    | buy uid count price rng =>
      exact ih _ (buy_preserves db uid count price rng h1 h2).1
        (buy_preserves db uid count price rng h1 h2).2
    | tick =>
      exact ih _ (tick_preserves db h1 h2).1 (tick_preserves db h1 h2).2

/-- C3 witness: a purchase followed by an accrual tick from balance 59. -/
theorem C3_witness :
    nonnegBalances (runEcon dbC5 [EconOp.buy 1 2 20 [0, 0, 0, 0], EconOp.tick]) :=
  C3_balances_nonneg dbC5 [EconOp.buy 1 2 20 [0, 0, 0, 0], EconOp.tick]
    (by unfold uniqueUserIds; decide) (by unfold nonnegBalances; decide)

/-- C8 counterexample: buying a 2-pack from a 1-card catalog (fewer entries
than the pack) rolls legendary (r = 99) for both slots, yet nothing is
synthesized or persisted — the code falls back to the whole catalog and grants
the common card twice; and with an empty catalog the purchased-pack rarity is
picked uniformly (index 3 % 4 = legendary) where weighted sampling of the same
number (3 < 60) yields common. -/
theorem C8_counterexample :
    weightedPick (RARITY_DEFAULTS.map (·.1)) (RARITY_DEFAULTS.map (·.2.1)) 99 = "legendary" ∧
    (_buy_pack dbC8 1 2 20 [99, 0, 99, 0]).1.cards = dbC8.cards ∧
    (_buy_pack dbC8 1 2 20 [99, 0, 99, 0]).2.2
      = BuyRes.bought
          [{ id := 1, name := "c", rarity := "common", coinsPerHour := 1, imageFileId := none },
           { id := 1, name := "c", rarity := "common", coinsPerHour := 1, imageFileId := none }] ∧
    weightedPick (RARITY_DEFAULTS.map (·.1)) (RARITY_DEFAULTS.map (·.2.1)) 3 = "common" ∧
    (_buy_pack dbC8e 1 1 0 [3, 0]).2.2
      = BuyRes.bought
          [{ id := 1, name := "Card1000", rarity := "legendary", coinsPerHour := 20,
             imageFileId := none }] := by
  decide

/-- C8 (amended): a pack always yields exactly `count` inventory items, but
for purchased packs the dual-path threshold is catalog nonempty versus empty,
not "at least count": with a nonempty catalog every slot grants an existing
catalog card (weighted rarity with whole-catalog fallback) and nothing is ever
synthesized, even when the catalog has fewer entries than the pack; with an
empty catalog every slot synthesizes and persists a fresh definition carrying
the rolled rarity's default income, the rarity being chosen uniformly rather
than by the documented weights. -/
theorem C8_buy_pack_paths (db : DB) (uid : Int) (count : Nat) (price : Int)
    (rng : List Nat) (u : UserRow)
    (hu : db.users.find? (fun v => v.tgId == uid) = some u)
    (hfund : price ≤ u.coins) :
    ∃ db' rng' got, _buy_pack db uid count price rng = (db', rng', BuyRes.bought got) ∧
      got.length = count ∧
      (db'.inventory.filter (fun i => i.userId == uid)).length
        = (db.inventory.filter (fun i => i.userId == uid)).length + count ∧
      (db.cards ≠ [] → db'.cards = db.cards ∧ ∀ c ∈ got, c ∈ db.cards) ∧
      (db.cards = [] → db'.cards.length = count ∧
        ∀ c ∈ got, c.coinsPerHour = rarityDefaultIncome c.rarity) := by
  obtain ⟨db1, hdb1⟩ : ∃ db1 : DB, db1 = { db with users := db.users.map (fun v =>
      if v.tgId == uid then { v with coins := v.coins - price } else v) } := ⟨_, rfl⟩
  unfold _buy_pack
  rw [hu]
  simp only []
  rw [if_neg (not_lt.mpr hfund), ← hdb1]
  by_cases hc : db.cards.isEmpty = true
  · rw [if_pos hc]
    have h0 : db.cards = [] := by
      cases hcc : db.cards with
      | nil => rfl
      | cons a t => rw [hcc] at hc; exact absurd hc (by simp)
    have hs := buyEmptyLoop_spec uid count db1 rng []
    refine ⟨_, _, _, rfl, ?_, ?_, ?_, ?_⟩
    · rw [hs.2.2.1]
      simp
    · rw [hs.2.2.2.1, hdb1]
    · intro hne
      exact absurd h0 hne
    · intro _
      refine ⟨?_, ?_⟩
      · rw [hs.2.2.2.2.1, hdb1]
        simp only []
        rw [h0]
        simp
      · intro c hcg
        rcases hs.2.2.2.2.2 c hcg with hmem | hinc
        · exact absurd hmem (List.not_mem_nil c)
        · exact hinc
  · rw [if_neg hc]
    have hne : db.cards ≠ [] := by
      intro h0
      rw [h0] at hc
      exact hc rfl
    have hs := drawPickLoop_spec db.cards uid count db1 rng []
    have hm := drawPickLoop_mem db.cards uid hne count db1 rng []
    refine ⟨_, _, _, rfl, ?_, ?_, ?_, ?_⟩
    · rw [hs.2.2.2.1]
      simp
    · rw [hs.2.2.2.2, hdb1]
    · intro _
      refine ⟨?_, ?_⟩
      · rw [hs.2.1, hdb1]
      · intro c hcg
        rcases hm c hcg with hmem | hmem
        · exact absurd hmem (List.not_mem_nil c)
        · exact hmem
    · intro h0
      exact absurd h0 hne

/-- C8 witness: the amended statement at the 1-card catalog with a 2-pack. -/
theorem C8_witness :
    ∃ db' rng' got, _buy_pack dbC8 1 2 20 [99, 0, 99, 0] = (db', rng', BuyRes.bought got) ∧
      got.length = 2 ∧
      (db'.inventory.filter (fun i => i.userId == 1)).length
        = (dbC8.inventory.filter (fun i => i.userId == 1)).length + 2 ∧
      (dbC8.cards ≠ [] → db'.cards = dbC8.cards ∧ ∀ c ∈ got, c ∈ dbC8.cards) ∧
      (dbC8.cards = [] → db'.cards.length = 2 ∧
        ∀ c ∈ got, c.coinsPerHour = rarityDefaultIncome c.rarity) :=
  C8_buy_pack_paths dbC8 1 2 20 [99, 0, 99, 0] { tgId := 1, lastPack := 0, coins := 100 }
    (by decide) (by decide)
